import Mathlib

/-!
Verification development for the env-checker core engine.

The embedding below translates the core scanning engine of the repository
into Lean:

* `RE` and `testRE` model JavaScript regular-expression matching for the
  constructs used by the rule catalog (literals, case-insensitive literals,
  character classes, alternation, concatenation, Kleene star, bounded
  repetition, and the one negative lookahead, encoded with complement and
  intersection).  Matching is by Brzozowski derivatives, so every pattern
  test is executable.
* `Rule`, `DEFAULT_RULES`, `getRuleById` translate dist/core/rules.js.
* `EnvScanner.applyRule`, `EnvScanner.generateQuickFix`,
  `EnvScanner.scanLine`, `EnvScanner.scanLines`, `EnvScanner.scanContent`,
  `EnvScanner.createScanResult`, `EnvScanner.toggleRule` translate the
  scanner (dist/core/scanner.js).  The mutable rule list of the class is
  passed explicitly; `toggleRule` returns the updated list.
* `Reporter.generateSummary` and `Reporter.generateConsoleReport` translate
  src/core/reporter.ts.

The creation timestamp field (`scannedAt`, a wall-clock Date) is omitted
from `ScanResult`: it carries no information about the computation.
-/

/-! ## Extended regular expressions with Brzozowski derivatives -/

/-- Extended regular expressions over characters: empty language, empty
string, a character class given by a boolean predicate, alternation,
concatenation, Kleene star, intersection and complement.  Intersection and
complement are used only to encode the one negative lookahead appearing in
the rule catalog. -/
inductive RE where
  | emp : RE
  | eps : RE
  | cls : (Char → Bool) → RE
  | alt : RE → RE → RE
  | cat : RE → RE → RE
  | star : RE → RE
  | inter : RE → RE → RE
  | compl : RE → RE

namespace RE

/-- Nullability: does the regular expression accept the empty string. -/
def nullable : RE → Bool
  | emp => false
  | eps => true
  | cls _ => false
  | alt r s => nullable r || nullable s
  | cat r s => nullable r && nullable s
  | star _ => true
  | inter r s => nullable r && nullable s
  | compl r => !(nullable r)

/-- Alternation that collapses the empty language (language preserving). -/
def mkAlt : RE → RE → RE
  | emp, s => s
  | r, emp => r
  | r, s => alt r s

/-- Concatenation that collapses the empty language and the empty string
(language preserving). -/
def mkCat : RE → RE → RE
  | emp, _ => emp
  | _, emp => emp
  | eps, s => s
  | r, eps => r
  | r, s => cat r s

/-- Brzozowski derivative with respect to one character. -/
def deriv : RE → Char → RE
  | emp, _ => emp
  | eps, _ => emp
  | cls f, c => if f c then eps else emp
  | alt r s, c => mkAlt (deriv r c) (deriv s c)
  | cat r s, c =>
      if nullable r then mkAlt (mkCat (deriv r c) s) (deriv s c)
      else mkCat (deriv r c) s
  | star r, c => mkCat (deriv r c) (star r)
  | inter r s, c => inter (deriv r c) (deriv s c)
  | compl r, c => compl (deriv r c)

/-- Does the regular expression match the whole character list. -/
def accepts (r : RE) (cs : List Char) : Bool :=
  nullable (cs.foldl deriv r)

end RE

/-- Full-string match of a regular expression against a string. -/
def testRE (r : RE) (s : String) : Bool :=
  RE.accepts r s.data

/-! ### Pattern building blocks mirroring the JavaScript regex literals -/

/-- Any character at all (used for unanchored search positions). -/
def anyChar : RE := RE.cls (fun _ => true)

/-- The JavaScript `.` metacharacter: any character except a line
terminator. -/
def dotChar : RE :=
  RE.cls (fun c => !(c == '\n' || c == '\r' || c == '\u2028' || c == '\u2029'))

/-- `.*` -/
def dotStar : RE := RE.star dotChar

/-- `r+` -/
def rePlus (r : RE) : RE := RE.cat r (RE.star r)

/-- A literal character, matched case sensitively. -/
def chr (c : Char) : RE := RE.cls (fun d => d == c)

/-- A literal character under the `/i` flag: matched up to case folding. -/
def chrCI (c : Char) : RE := RE.cls (fun d => d.toLower == c.toLower)

/-- A literal string, matched case sensitively. -/
def str (s : String) : RE := s.data.foldr (fun c r => RE.cat (chr c) r) RE.eps

/-- A literal string under the `/i` flag. -/
def strCI (s : String) : RE := s.data.foldr (fun c r => RE.cat (chrCI c) r) RE.eps

/-- Right-nested concatenation of a list of regular expressions. -/
def cats (rs : List RE) : RE := rs.foldr RE.cat RE.eps

/-- Left-nested alternation of a list of regular expressions. -/
def alts : List RE → RE
  | [] => RE.emp
  | [r] => r
  | r :: rs => RE.alt r (alts rs)

/-- `.*s.*` with a case-insensitive literal in the middle. -/
def ciWithin (s : String) : RE := cats [dotStar, strCI s, dotStar]

/-- An unanchored `RegExp.test`: the pattern may match any substring, so the
whole string is in the language of `any* r any*`. -/
def search (r : RE) : RE := cats [RE.star anyChar, r, RE.star anyChar]

/-- The JavaScript `\s` class (whitespace, as far as it can occur in the
scanned ASCII-plus-Latin-1 inputs). -/
def wsChar : RE :=
  RE.cls (fun c =>
    c == ' ' || c == '\t' || c == '\n' || c == '\r' ||
    c == '\x0b' || c == '\x0c' || c == '\u00a0' || c == '\ufeff')

/-- `r` repeated `n` times. -/
def repN (r : RE) : Nat → RE
  | 0 => RE.eps
  | n + 1 => RE.cat r (repN r n)

/-- The counted repetition `r` at least `n` times. -/
def repAtLeast (r : RE) (n : Nat) : RE := RE.cat (repN r n) (RE.star r)

/-! ## JavaScript string primitives used by the scanner -/

/-- The JavaScript whitespace test used by `String.prototype.trim`
(restricted to the characters that can occur in the scanned inputs). -/
def isJsWs (c : Char) : Bool :=
  c == ' ' || c == '\t' || c == '\n' || c == '\r' ||
  c == '\x0b' || c == '\x0c' || c == '\u00a0' || c == '\ufeff'

/-- Remove leading and trailing whitespace from a character list. -/
def trimChars (cs : List Char) : List Char :=
  ((cs.dropWhile isJsWs).reverse.dropWhile isJsWs).reverse

/-- JavaScript `String.prototype.trim`. -/
def trimStr (s : String) : String := ⟨trimChars s.data⟩

/-- JavaScript `content.split("\n")` on the underlying character list:
always returns at least one piece, one more piece per newline character. -/
def splitLinesChars : List Char → List (List Char)
  | [] => [[]]
  | c :: rest =>
      match splitLinesChars rest with
      | [] => [[]]
      | l :: ls => if c == '\n' then [] :: l :: ls else (c :: l) :: ls

/-- JavaScript `content.split("\n")`. -/
def splitNl (content : String) : List String :=
  (splitLinesChars content.data).map (fun l => ⟨l⟩)

/-- Is the character a JavaScript line terminator (the characters the `.`
metacharacter refuses to match). -/
def isLineTerm (c : Char) : Bool :=
  c == '\n' || c == '\r' || c == '\u2028' || c == '\u2029'

/-! ## Core data model (src/core/types.ts) -/

/-- Severity levels of the `Severity` enum. -/
inductive Severity where
  | critical
  | warning
  | info
deriving DecidableEq, Repr

/-- The tag of a quick fix: `"mask" | "remove" | "comment"`. -/
inductive FixType where
  | mask
  | remove
  | comment
deriving DecidableEq, Repr

/-- A remediation edit: a tagged replacement string for the offending
line. -/
structure QuickFix where
  type : FixType
  replacement : String
deriving DecidableEq, Repr

/-- One rule match on one line (`EnvFinding`). -/
structure Finding where
  line : Nat
  column : Nat
  key : String
  value : String
  severity : Severity
  ruleId : String
  message : String
  suggestion : String
  quickFix : QuickFix
deriving DecidableEq, Repr

/-- The outcome of scanning one document.  The wall-clock `scannedAt`
timestamp of the source is omitted. -/
structure ScanResult where
  filePath : String
  findings : List Finding
  totalLines : Nat
  criticalCount : Nat
  warningCount : Nat
  infoCount : Nat
deriving DecidableEq, Repr

/-- A detection rule: three optional patterns plus metadata. -/
structure Rule where
  id : String
  name : String
  description : String
  severity : Severity
  pattern : Option RE
  keyPattern : Option RE
  valuePattern : Option RE
  suggestion : String
  enabled : Bool

/-! ## Built-in rule catalog (dist/core/rules.js)

Each pattern definition carries the JavaScript regex literal it translates.
Unanchored `test` patterns are wrapped in `search`; patterns anchored with
`^...$` are translated to the full-string language directly. -/

/-- `/^(.*password.*|.*pwd.*|.*pass.*)=.+$/i` -/
def passwordHardcodedPattern : RE :=
  cats [alts [ciWithin "password", ciWithin "pwd", ciWithin "pass"],
        chr '=', rePlus dotChar]

/-- `/(password|pwd|pass)/i` -/
def passwordHardcodedKeyPattern : RE :=
  search (alts [strCI "password", strCI "pwd", strCI "pass"])

/-- The dollar-brace, percent-brace and angle-bracket markers refused by the
password value pattern. -/
def templateMarker : RE :=
  alts [RE.cat (chr '$') (chr '\x7b'), RE.cat (chr '%') (chr '\x7b'),
        chr '<', chr '>']

/-- `/^(?!.*(\$\{|%\{|<|>)).{1,}$/` — the negative lookahead at position 0
succeeds exactly when no prefix of the string matches `.*(marker)`, that is
when the string is outside the language `.*(marker)(any)*`; the rest of the
pattern requires at least one non-terminator character. -/
def passwordHardcodedValuePattern : RE :=
  RE.inter
    (RE.compl (cats [dotStar, templateMarker, RE.star anyChar]))
    (rePlus dotChar)

/-- `/^(.*api.*key.*|.*secret.*|.*token.*)=.+$/i` -/
def apiKeyExposedPattern : RE :=
  cats [alts [cats [dotStar, strCI "api", dotStar, strCI "key", dotStar],
              ciWithin "secret", ciWithin "token"],
        chr '=', rePlus dotChar]

/-- `/(api.*key|secret|token)/i` -/
def apiKeyExposedKeyPattern : RE :=
  search (alts [cats [strCI "api", dotStar, strCI "key"],
                strCI "secret", strCI "token"])

/-- `/^[a-zA-Z0-9_-]{20,}$/` -/
def apiKeyExposedValuePattern : RE :=
  repAtLeast (RE.cls (fun c => c.isAlphanum || c == '_' || c == '-')) 20

/-- `/^.*_url.*=.*:\/\/.*:.*@.*$/i` -/
def databaseUrlExposedPattern : RE :=
  cats [dotStar, strCI "_url", dotStar, chr '=', dotStar, str "://",
        dotStar, chr ':', dotStar, chr '@', dotStar]

/-- `/.*url.*/i` -/
def databaseUrlExposedKeyPattern : RE :=
  search (ciWithin "url")

/-- `/:\/\/[^:]+:[^@]+@/` -/
def databaseUrlExposedValuePattern : RE :=
  search (cats [str "://", rePlus (RE.cls (fun c => !(c == ':'))), chr ':',
                rePlus (RE.cls (fun c => !(c == '@'))), chr '@'])

/-- `/^debug\s*=\s*(true|1|on|yes)$/i` -/
def debugEnabledPattern : RE :=
  cats [strCI "debug", RE.star wsChar, chr '=', RE.star wsChar,
        alts [strCI "true", chr '1', strCI "on", strCI "yes"]]

/-- `/^debug$/i` -/
def debugEnabledKeyPattern : RE := strCI "debug"

/-- `/^(true|1|on|yes)$/i` -/
def debugEnabledValuePattern : RE :=
  alts [strCI "true", chr '1', strCI "on", strCI "yes"]

/-- `/^.*private.*key.*=.*BEGIN.*PRIVATE.*KEY.*$/i` -/
def privateKeyExposedPattern : RE :=
  cats [dotStar, strCI "private", dotStar, strCI "key", dotStar, chr '=',
        dotStar, strCI "begin", dotStar, strCI "private", dotStar,
        strCI "key", dotStar]

/-- `/private.*key/i` -/
def privateKeyExposedKeyPattern : RE :=
  search (cats [strCI "private", dotStar, strCI "key"])

/-- `/BEGIN.*PRIVATE.*KEY/` (case sensitive) -/
def privateKeyExposedValuePattern : RE :=
  search (cats [str "BEGIN", dotStar, str "PRIVATE", dotStar, str "KEY"])

/-- `(123456|password|admin|root|test|demo)` under `/i`. -/
def weakPasswordAlternatives : RE :=
  alts [str "123456", strCI "password", strCI "admin", strCI "root",
        strCI "test", strCI "demo"]

/-- `/^.*password.*=\s*(123456|password|admin|root|test|demo)$/i` -/
def weakPasswordPattern : RE :=
  cats [dotStar, strCI "password", dotStar, chr '=', RE.star wsChar,
        weakPasswordAlternatives]

/-- `/password/i` -/
def weakPasswordKeyPattern : RE := search (strCI "password")

/-- `/^(123456|password|admin|root|test|demo)$/i` -/
def weakPasswordValuePattern : RE := weakPasswordAlternatives

/-- `/^.*url.*=.*localhost.*$/i` -/
def localhostUrlPattern : RE :=
  cats [dotStar, strCI "url", dotStar, chr '=', dotStar, strCI "localhost",
        dotStar]

/-- `/url/i` -/
def localhostUrlKeyPattern : RE := search (strCI "url")

/-- `/localhost/i` -/
def localhostUrlValuePattern : RE := search (strCI "localhost")

/-- Rule `password-hardcoded`. -/
def passwordHardcodedRule : Rule where
  id := "password-hardcoded"
  name := "Hardcoded Password"
  description := "Detects hardcoded passwords in environment variables"
  severity := Severity.critical
  pattern := some passwordHardcodedPattern
  keyPattern := some passwordHardcodedKeyPattern
  valuePattern := some passwordHardcodedValuePattern
  suggestion := "Remove hardcoded password and use secure environment variable injection"
  enabled := true

/-- Rule `api-key-exposed`. -/
def apiKeyExposedRule : Rule where
  id := "api-key-exposed"
  name := "Exposed API Key"
  description := "Detects potentially exposed API keys"
  severity := Severity.critical
  pattern := some apiKeyExposedPattern
  keyPattern := some apiKeyExposedKeyPattern
  valuePattern := some apiKeyExposedValuePattern
  suggestion := "Use environment variable injection or secure key management"
  enabled := true

/-- Rule `database-url-exposed`. -/
def databaseUrlExposedRule : Rule where
  id := "database-url-exposed"
  name := "Database URL with Credentials"
  description := "Detects database URLs containing credentials"
  severity := Severity.critical
  pattern := some databaseUrlExposedPattern
  keyPattern := some databaseUrlExposedKeyPattern
  valuePattern := some databaseUrlExposedValuePattern
  suggestion := "Remove credentials from URL and use separate environment variables"
  enabled := true

/-- Rule `debug-enabled`. -/
def debugEnabledRule : Rule where
  id := "debug-enabled"
  name := "Debug Mode Enabled"
  description := "Debug mode should not be enabled in production"
  severity := Severity.warning
  pattern := some debugEnabledPattern
  keyPattern := some debugEnabledKeyPattern
  valuePattern := some debugEnabledValuePattern
  suggestion := "Set DEBUG=false or remove for production environments"
  enabled := true

/-- Rule `private-key-exposed`. -/
def privateKeyExposedRule : Rule where
  id := "private-key-exposed"
  name := "Private Key Exposed"
  description := "Detects private keys or certificates in plain text"
  severity := Severity.critical
  pattern := some privateKeyExposedPattern
  keyPattern := some privateKeyExposedKeyPattern
  valuePattern := some privateKeyExposedValuePattern
  suggestion := "Store private keys in secure key management system"
  enabled := true

/-- Rule `weak-password`. -/
def weakPasswordRule : Rule where
  id := "weak-password"
  name := "Weak Password"
  description := "Detects commonly used weak passwords"
  severity := Severity.warning
  pattern := some weakPasswordPattern
  keyPattern := some weakPasswordKeyPattern
  valuePattern := some weakPasswordValuePattern
  suggestion := "Use a strong, unique password"
  enabled := true

/-- Rule `localhost-url`. -/
def localhostUrlRule : Rule where
  id := "localhost-url"
  name := "Localhost URL"
  description := "Localhost URLs should not be used in production"
  severity := Severity.info
  pattern := some localhostUrlPattern
  keyPattern := some localhostUrlKeyPattern
  valuePattern := some localhostUrlValuePattern
  suggestion := "Replace with production URL or use environment-specific configuration"
  enabled := true

/-- The built-in catalog `DEFAULT_RULES`, in source order. -/
def DEFAULT_RULES : List Rule :=
  [passwordHardcodedRule, apiKeyExposedRule, databaseUrlExposedRule,
   debugEnabledRule, privateKeyExposedRule, weakPasswordRule,
   localhostUrlRule]

/-- `getRuleById` of rules.js: first catalog rule with the exact id. -/
def getRuleById (ruleId : String) : Option Rule :=
  DEFAULT_RULES.find? (fun rule => rule.id == ruleId)

/-! ## Scanning engine (dist/core/scanner.js) -/

namespace EnvScanner

/-- `generateQuickFix` of the scanner: a switch on the rule severity. -/
def generateQuickFix (rule : Rule) (key value fullLine : String) : QuickFix :=
  match rule.severity with
  | Severity.critical =>
      { type := FixType.comment,
        replacement := "# " ++ fullLine ++ " # SECURITY: " ++ rule.suggestion }
  | Severity.warning =>
      { type := FixType.mask,
        replacement := key ++ "=***MASKED***" }
  | _ =>
      { type := FixType.comment,
        replacement := "# " ++ fullLine ++ " # INFO: " ++ rule.suggestion }

/-- The matches flag computed by `applyRule`: it starts false, is set true
only by a successful line-pattern test, and is reset to false by a failing
key-pattern or value-pattern test. -/
def ruleMatches (rule : Rule) (key value fullLine : String) : Bool :=
  let m1 : Bool :=
    match rule.pattern with
    | some p => testRE p fullLine
    | none => false
  let m2 : Bool :=
    match rule.keyPattern with
    | some kp => if !(testRE kp key) then false else m1
    | none => m1
  match rule.valuePattern with
  | some vp => if !(testRE vp value) then false else m2
  | none => m2

/-- `applyRule` of the scanner: null when the matches flag ends up false,
otherwise the finding record built from the rule and the parsed line. -/
def applyRule (rule : Rule) (key value : String) (lineNumber : Nat)
    (fullLine : String) : Option Finding :=
  if !(ruleMatches rule key value fullLine) then none
  else some
    { line := lineNumber
      column := 1
      key := key
      value := value
      severity := rule.severity
      ruleId := rule.id
      message := rule.name ++ ": " ++ rule.description
      suggestion := rule.suggestion
      quickFix := generateQuickFix rule key value fullLine }

/-- The `/^([^=]+)=(.*)$/` line shape: the key is the nonempty run of
characters strictly before the first equals sign, the value is everything
after it (the dot metacharacter refuses line terminators in the value). -/
def parseLine (t : String) : Option (String × String) :=
  let key := t.data.takeWhile (fun c => !(c == '='))
  match t.data.dropWhile (fun c => !(c == '=')) with
  | [] => none
  | _ :: value =>
      if key.isEmpty || value.any isLineTerm then none
      else some (⟨key⟩, ⟨value⟩)

/-- The body of the per-line callback in `scanContent`: trim, skip blank
and comment lines, parse the key-value shape, then run every enabled rule
in catalog order. -/
def scanLine (rules : List Rule) (lineNumber : Nat) (line : String) :
    List Finding :=
  let trimmedLine := trimStr line
  if trimmedLine.data.isEmpty || trimmedLine.data.head? == some '#' then []
  else
    match parseLine trimmedLine with
    | none => []
    | some (key, value) =>
        let cleanKey := trimStr key
        let cleanValue := trimStr value
        rules.filterMap (fun rule =>
          if rule.enabled then
            applyRule rule cleanKey cleanValue lineNumber trimmedLine
          else none)

/-- The `lines.forEach` loop of `scanContent`, with the 1-based line
number threaded explicitly. -/
def scanLines (rules : List Rule) : Nat → List String → List Finding
  | _, [] => []
  | n, line :: rest => scanLine rules n line ++ scanLines rules (n + 1) rest

/-- `createScanResult`: statistics are counted from the findings list. -/
def createScanResult (filePath : String) (findings : List Finding)
    (totalLines : Nat) : ScanResult :=
  { filePath := filePath
    findings := findings
    totalLines := totalLines
    criticalCount :=
      (findings.filter (fun f => f.severity == Severity.critical)).length
    warningCount :=
      (findings.filter (fun f => f.severity == Severity.warning)).length
    infoCount :=
      (findings.filter (fun f => f.severity == Severity.info)).length }

/-- `scanContent`: split on newlines, scan each line, aggregate. -/
def scanContent (rules : List Rule) (content : String) (filePath : String) :
    ScanResult :=
  let lines := splitNl content
  createScanResult filePath (scanLines rules 1 lines) lines.length

/-- `toggleRule`: `find` locates the first rule with the given id and its
enabled flag is mutated in place; absent ids leave the list unchanged. -/
def toggleRule : List Rule → String → Bool → List Rule
  | [], _, _ => []
  | r :: rs, ruleId, enabled =>
      if r.id == ruleId then { r with enabled := enabled } :: rs
      else r :: toggleRule rs ruleId enabled

end EnvScanner

/-! ## Reporter (src/core/reporter.ts) -/

namespace Reporter

/-- The summary record computed by `generateSummary`. -/
structure Summary where
  filesScanned : Nat
  totalFindings : Nat
  critical : Nat
  warnings : Nat
  info : Nat
deriving DecidableEq, Repr

/-- `generateSummary`: each total is a `reduce` with initial value 0. -/
def generateSummary (results : List ScanResult) : Summary :=
  { filesScanned := results.length
    totalFindings := results.foldl (fun sum r => sum + r.findings.length) 0
    critical := results.foldl (fun sum r => sum + r.criticalCount) 0
    warnings := results.foldl (fun sum r => sum + r.warningCount) 0
    info := results.foldl (fun sum r => sum + r.infoCount) 0 }

/-- `getSeverityIcon`. -/
def getSeverityIcon : Severity → String
  | Severity.critical => "🚨"
  | Severity.warning => "⚠️"
  | Severity.info => "ℹ️"

/-- The per-finding lines of the console report. -/
def consoleFinding (finding : Finding) : String :=
  getSeverityIcon finding.severity ++ " Line " ++ toString finding.line ++
  ": " ++ finding.message ++ "\n" ++
  "   Key: " ++ finding.key ++ "\n" ++
  "   💡 " ++ finding.suggestion ++ "\n\n"

/-- The per-file section of the console report: files with zero findings
are omitted. -/
def consoleFileSection (result : ScanResult) : String :=
  if result.findings.length == 0 then ""
  else
    "📄 " ++ result.filePath ++ "\n" ++
    String.join (List.replicate (result.filePath.length + 2) "=") ++ "\n" ++
    result.findings.foldl (fun acc f => acc ++ consoleFinding f) ""

/-- `generateConsoleReport`: banner, summary lines, then the per-file
sections appended in order. -/
def generateConsoleReport (results : List ScanResult) : String :=
  let summary := generateSummary results
  let header :=
    "\n=== ENV-CHECKER SECURITY REPORT ===\n\n" ++
    "Files scanned: " ++ toString summary.filesScanned ++ "\n" ++
    "Total findings: " ++ toString summary.totalFindings ++ "\n" ++
    "Critical: " ++ toString summary.critical ++
    " | Warnings: " ++ toString summary.warnings ++
    " | Info: " ++ toString summary.info ++ "\n\n"
  results.foldl (fun acc r => acc ++ consoleFileSection r) header

end Reporter

/-! ## Helper lemmas -/

/-- Splitting on newlines yields one piece more than the newline count. -/
theorem splitLinesChars_length (cs : List Char) :
    (splitLinesChars cs).length = cs.count '\n' + 1 := by
  induction cs with
  | nil => simp [splitLinesChars]
  | cons c rest ih =>
      unfold splitLinesChars
      cases h : splitLinesChars rest with
      | nil => rw [h] at ih; simp at ih
      | cons l ls =>
          rw [h] at ih
          cases hc : c == '\n' <;>
            simp_all [List.count_cons, Nat.add_comm, beq_iff_eq]

/-- The three severity filters partition any findings list. -/
theorem severity_filters_partition (fs : List Finding) :
    (fs.filter (fun f => f.severity == Severity.critical)).length +
    (fs.filter (fun f => f.severity == Severity.warning)).length +
    (fs.filter (fun f => f.severity == Severity.info)).length = fs.length := by
  induction fs with
  | nil => rfl
  | cons f rest ih =>
      cases h : f.severity <;> simp_all [List.filter_cons, h] <;> omega

/-- Folding an addition over a list starting from an accumulator is the
accumulator plus the mapped sum. -/
theorem foldl_add_eq_sum (g : ScanResult → Nat) (l : List ScanResult) (a : Nat) :
    l.foldl (fun sum r => sum + g r) a = a + (l.map g).sum := by
  induction l generalizing a with
  | nil => simp
  | cons r rest ih => simp [ih, Nat.add_assoc]

/-! ## Claim theorems -/

/-- C1: `applyRule` produces a finding exactly when the line pattern (if
defined) matches the full line, the key pattern (if defined) matches the
key, and the value pattern (if defined) matches the value; a rule with no
line pattern never produces a finding, so the line pattern is the only
positive signal and key/value patterns can only veto. -/
theorem applyRule_finding_iff (rule : Rule) (key value : String)
    (lineNumber : Nat) (fullLine : String) :
    (EnvScanner.applyRule rule key value lineNumber fullLine).isSome =
      ((match rule.pattern with
        | some p => testRE p fullLine
        | none => false) &&
       (match rule.keyPattern with
        | some kp => testRE kp key
        | none => true) &&
       (match rule.valuePattern with
        | some vp => testRE vp value
        | none => true)) := by
  have hb : forall (b : Bool) (R : Finding),
      (if !b then none else some R).isSome = b := by
    intro b R; cases b <;> simp
  unfold EnvScanner.applyRule
  rw [hb]
  unfold EnvScanner.ruleMatches
  rcases hp : rule.pattern with _ | p <;>
    rcases hk : rule.keyPattern with _ | kp <;>
    rcases hv : rule.valuePattern with _ | vp <;>
    simp only [hp, hk, hv] <;>
    (try split) <;> (try simp_all) <;> (try rw [Bool.and_comm])

/-- C4: the severity counters of every scan result count exactly the
findings of that severity, and the three counters sum to the number of
findings. -/
theorem scanResult_counts (rules : List Rule) (content filePath : String) :
    (EnvScanner.scanContent rules content filePath).criticalCount =
      ((EnvScanner.scanContent rules content filePath).findings.filter
        (fun f => f.severity == Severity.critical)).length ∧
    (EnvScanner.scanContent rules content filePath).warningCount =
      ((EnvScanner.scanContent rules content filePath).findings.filter
        (fun f => f.severity == Severity.warning)).length ∧
    (EnvScanner.scanContent rules content filePath).infoCount =
      ((EnvScanner.scanContent rules content filePath).findings.filter
        (fun f => f.severity == Severity.info)).length ∧
    (EnvScanner.scanContent rules content filePath).criticalCount +
      (EnvScanner.scanContent rules content filePath).warningCount +
      (EnvScanner.scanContent rules content filePath).infoCount =
      (EnvScanner.scanContent rules content filePath).findings.length := by
  refine ⟨rfl, rfl, rfl, ?_⟩
  exact severity_filters_partition _

/-- C5: the remediation edit attached by `applyRule` is determined by the
severity of the matched rule alone: CRITICAL gives a comment edit with a
SECURITY suffix, WARNING gives a mask edit, INFO gives a comment edit with
an INFO suffix, and the remove variant is never produced. -/
theorem finding_quickFix_by_severity (rule : Rule) (key value : String)
    (lineNumber : Nat) (fullLine : String) (f : Finding)
    (h : EnvScanner.applyRule rule key value lineNumber fullLine = some f) :
    f.severity = rule.severity ∧
    (rule.severity = Severity.critical →
      f.quickFix = ⟨FixType.comment,
        "# " ++ fullLine ++ " # SECURITY: " ++ rule.suggestion⟩) ∧
    (rule.severity = Severity.warning →
      f.quickFix = ⟨FixType.mask, key ++ "=***MASKED***"⟩) ∧
    (rule.severity = Severity.info →
      f.quickFix = ⟨FixType.comment,
        "# " ++ fullLine ++ " # INFO: " ++ rule.suggestion⟩) ∧
    f.quickFix.type ≠ FixType.remove := by
  unfold EnvScanner.applyRule at h
  split at h
  · exact absurd h (by simp)
  · rw [Option.some.injEq] at h
    subst h
    refine ⟨rfl, ?_, ?_, ?_, ?_⟩ <;>
      cases hs : rule.severity <;>
      simp [EnvScanner.generateQuickFix, hs]

/-- The concrete finding produced by the password rule on the line
DB_PASSWORD=123456, used to witness the quick-fix theorem. -/
def c5Finding : Finding where
  line := 1
  column := 1
  key := "DB_PASSWORD"
  value := "123456"
  severity := Severity.critical
  ruleId := "password-hardcoded"
  message := "Hardcoded Password: Detects hardcoded passwords in environment variables"
  suggestion := "Remove hardcoded password and use secure environment variable injection"
  quickFix :=
    ⟨FixType.comment,
     "# DB_PASSWORD=123456 # SECURITY: Remove hardcoded password and use secure environment variable injection"⟩

/-- Witness for C5 at a concrete matching input. -/
theorem finding_quickFix_by_severity_witness :
    EnvScanner.applyRule passwordHardcodedRule "DB_PASSWORD" "123456" 1
      "DB_PASSWORD=123456" = some c5Finding ∧
    c5Finding.quickFix =
      ⟨FixType.comment,
       "# DB_PASSWORD=123456 # SECURITY: " ++ passwordHardcodedRule.suggestion⟩ ∧
    c5Finding.quickFix.type ≠ FixType.remove :=
  ⟨by decide,
   (finding_quickFix_by_severity passwordHardcodedRule "DB_PASSWORD" "123456"
      1 "DB_PASSWORD=123456" c5Finding (by decide)).2.1 rfl,
   (finding_quickFix_by_severity passwordHardcodedRule "DB_PASSWORD" "123456"
      1 "DB_PASSWORD=123456" c5Finding (by decide)).2.2.2.2⟩

/-- C8: `toggleRule` rewrites the enabled flag of the first rule whose id
matches exactly and leaves everything else unchanged; when no rule has the
id it is a no-op, and `getRuleById` returns a not-found result for an
unknown id. -/
theorem toggleRule_first_match (rules : List Rule) (ruleId : String)
    (b : Bool) :
    EnvScanner.toggleRule rules ruleId b =
      rules.takeWhile (fun r => !(r.id == ruleId)) ++
        (match rules.dropWhile (fun r => !(r.id == ruleId)) with
         | [] => []
         | r :: post => { r with enabled := b } :: post) ∧
    (rules.all (fun r => !(r.id == ruleId)) = true →
      EnvScanner.toggleRule rules ruleId b = rules) ∧
    (DEFAULT_RULES.all (fun r => !(r.id == ruleId)) = true →
      getRuleById ruleId = none) := by
  refine ⟨?_, ?_, ?_⟩
  · induction rules with
    | nil => rfl
    | cons r rs ih =>
        cases hid : r.id == ruleId <;>
          simp [EnvScanner.toggleRule, List.takeWhile_cons, List.dropWhile_cons,
                hid, ih]
  · intro hall
    induction rules with
    | nil => rfl
    | cons r rs ih =>
        simp only [List.all_cons, Bool.and_eq_true] at hall
        have hne : (r.id == ruleId) = false := by simp_all
        simp [EnvScanner.toggleRule, hne, ih hall.2]
  · intro hall
    simp only [List.all_eq_true] at hall
    unfold getRuleById
    rw [List.find?_eq_none]
    intro r hr
    have := hall r hr
    simp_all

/-- Witness for C8 at a concrete unknown id. -/
theorem toggleRule_first_match_witness :
    DEFAULT_RULES.all (fun r => !(r.id == "no-such-id")) = true ∧
    EnvScanner.toggleRule DEFAULT_RULES "no-such-id" false = DEFAULT_RULES ∧
    getRuleById "no-such-id" = none :=
  ⟨by decide,
   (toggleRule_first_match DEFAULT_RULES "no-such-id" false).2.1 (by decide),
   (toggleRule_first_match DEFAULT_RULES "no-such-id" false).2.2 (by decide)⟩

/-- C2 counterexample: on the scenario input the API-key value threshold is
not met, so the claim requires exactly 1 finding, but the scan produces 2
findings (the weak-password rule also fires on line 1). -/
theorem scanScenario_counterexample :
    testRE apiKeyExposedValuePattern "secret123" = false ∧
    (EnvScanner.scanContent DEFAULT_RULES "DB_PASSWORD=123456\nAPI_KEY=secret123"
      ".env").findings.length = 2 ∧
    ¬((EnvScanner.scanContent DEFAULT_RULES "DB_PASSWORD=123456\nAPI_KEY=secret123"
      ".env").findings.length = 1) := by
  decide

/-- C2 amended: the scenario input yields exactly two findings, the
CRITICAL password-hardcoded finding and the WARNING weak-password finding,
both on line 1; when the API-key value meets the 20-character threshold the
CRITICAL api-key-exposed finding on line 2 is added as a third. -/
theorem scanScenario_amended :
    ((EnvScanner.scanContent DEFAULT_RULES "DB_PASSWORD=123456\nAPI_KEY=secret123"
        ".env").findings.map (fun f => (f.ruleId, f.severity, f.line)) =
      [("password-hardcoded", Severity.critical, 1),
       ("weak-password", Severity.warning, 1)]) ∧
    testRE apiKeyExposedValuePattern "abcdefghijklmnopqrst" = true ∧
    ((EnvScanner.scanContent DEFAULT_RULES
        "DB_PASSWORD=123456\nAPI_KEY=abcdefghijklmnopqrst"
        ".env").findings.map (fun f => (f.ruleId, f.severity, f.line)) =
      [("password-hardcoded", Severity.critical, 1),
       ("weak-password", Severity.warning, 1),
       ("api-key-exposed", Severity.critical, 2)]) := by
  decide

/-- C3: the total line count of every scan result is the number of newline
characters plus one, whatever the content; the empty string scans to one
line and no findings. -/
theorem scan_totalLines (rules : List Rule) (content filePath : String) :
    (EnvScanner.scanContent rules content filePath).totalLines =
      content.data.count '\n' + 1 ∧
    (EnvScanner.scanContent rules "" filePath).totalLines = 1 ∧
    (EnvScanner.scanContent rules "" filePath).findings = [] := by
  refine ⟨?_, rfl, rfl⟩
  show (splitNl content).length = _
  simp [splitNl, splitLinesChars_length]

/-- C7: the report summary fields are the length of the result list and the
sums of the per-result counters; the empty result list gives the all-zero
summary and a console report that is just the banner and zero summary, with
no per-file sections. -/
theorem report_summary_sums (results : List ScanResult) :
    (Reporter.generateSummary results).filesScanned = results.length ∧
    (Reporter.generateSummary results).totalFindings =
      (results.map (fun r => r.findings.length)).sum ∧
    (Reporter.generateSummary results).critical =
      (results.map (fun r => r.criticalCount)).sum ∧
    (Reporter.generateSummary results).warnings =
      (results.map (fun r => r.warningCount)).sum ∧
    (Reporter.generateSummary results).info =
      (results.map (fun r => r.infoCount)).sum ∧
    Reporter.generateSummary [] = ⟨0, 0, 0, 0, 0⟩ ∧
    Reporter.generateConsoleReport [] =
      "\n=== ENV-CHECKER SECURITY REPORT ===\n\n" ++
      "Files scanned: 0\nTotal findings: 0\n" ++
      "Critical: 0 | Warnings: 0 | Info: 0\n\n" := by
  refine ⟨rfl, ?_, ?_, ?_, ?_, rfl, rfl⟩ <;>
    simp [Reporter.generateSummary, foldl_add_eq_sum]

/-! ## Structure of the findings produced by a scan -/

/-- A finding returned by `applyRule` carries the line number it was
called with. -/
theorem applyRule_line_eq (rule : Rule) (key value : String) (n : Nat)
    (fullLine : String) (f : Finding)
    (h : EnvScanner.applyRule rule key value n fullLine = some f) :
    f.line = n := by
  unfold EnvScanner.applyRule at h
  split at h
  · exact absurd h (by simp)
  · rw [Option.some.injEq] at h; subst h; rfl

/-- A finding returned by `applyRule` carries the key and value it was
called with. -/
theorem applyRule_key_value_eq (rule : Rule) (key value : String) (n : Nat)
    (fullLine : String) (f : Finding)
    (h : EnvScanner.applyRule rule key value n fullLine = some f) :
    f.key = key ∧ f.value = value := by
  unfold EnvScanner.applyRule at h
  split at h
  · exact absurd h (by simp)
  · rw [Option.some.injEq] at h; subst h; exact ⟨rfl, rfl⟩

/-- Every finding of `scanLine` carries the line number of that line. -/
theorem scanLine_line_eq (rules : List Rule) (n : Nat) (line : String)
    (f : Finding) (hf : f ∈ EnvScanner.scanLine rules n line) :
    f.line = n := by
  simp only [EnvScanner.scanLine] at hf
  split at hf
  · simp at hf
  · split at hf
    · simp at hf
    · rw [List.mem_filterMap] at hf
      obtain ⟨rule, _, happ⟩ := hf
      split at happ
      · exact applyRule_line_eq _ _ _ _ _ _ happ
      · exact absurd happ (by simp)

/-- Every finding of `scanLines` starting at line `n` has line number at
least `n`. -/
theorem scanLines_line_ge (rules : List Rule) (n : Nat)
    (lines : List String) (f : Finding)
    (hf : f ∈ EnvScanner.scanLines rules n lines) :
    n ≤ f.line := by
  induction lines generalizing n with
  | nil => simp [EnvScanner.scanLines] at hf
  | cons l ls ih =>
      rw [EnvScanner.scanLines] at hf
      rcases List.mem_append.mp hf with h | h
      · exact Nat.le_of_eq (scanLine_line_eq rules n l f h).symm
      · exact Nat.le_of_succ_le (ih (n + 1) h)

/-- The findings of `scanLines` are ordered by line number. -/
theorem scanLines_pairwise (rules : List Rule) (n : Nat)
    (lines : List String) :
    (EnvScanner.scanLines rules n lines).Pairwise
      (fun f g => f.line ≤ g.line) := by
  induction lines generalizing n with
  | nil => simp [EnvScanner.scanLines]
  | cons l ls ih =>
      rw [EnvScanner.scanLines, List.pairwise_append]
      refine ⟨?_, ih (n + 1), ?_⟩
      · apply List.pairwise_of_forall_mem_list
        intro f hf g hg
        rw [scanLine_line_eq rules n l f hf, scanLine_line_eq rules n l g hg]
      · intro f hf g hg
        rw [scanLine_line_eq rules n l f hf]
        exact Nat.le_of_succ_le (scanLines_line_ge rules (n + 1) ls g hg)

/-- Filtering the findings of `scanLines` by the line number of the k-th
scanned line recovers exactly the findings of that line. -/
theorem scanLines_filter_eq (rules : List Rule) (lines : List String)
    (n k : Nat) (line : String) (h : lines[k]? = some line) :
    (EnvScanner.scanLines rules n lines).filter
      (fun f => f.line == n + k) = EnvScanner.scanLine rules (n + k) line := by
  induction lines generalizing n k with
  | nil => simp at h
  | cons l ls ih =>
      cases k with
      | zero =>
          rw [List.getElem?_cons_zero, Option.some.injEq] at h
          subst h
          simp only [Nat.add_zero]
          rw [EnvScanner.scanLines, List.filter_append]
          have h1 : (EnvScanner.scanLine rules n l).filter
              (fun f => f.line == n) = EnvScanner.scanLine rules n l := by
            rw [List.filter_eq_self]
            intro f hf
            simp [scanLine_line_eq rules n l f hf]
          have h2 : (EnvScanner.scanLines rules (n + 1) ls).filter
              (fun f => f.line == n) = [] := by
            rw [List.filter_eq_nil_iff]
            intro f hf
            have := scanLines_line_ge rules (n + 1) ls f hf
            simp only [beq_iff_eq]
            omega
          rw [h1, h2, List.append_nil]
      | succ k2 =>
          rw [List.getElem?_cons_succ] at h
          rw [EnvScanner.scanLines, List.filter_append]
          have h1 : (EnvScanner.scanLine rules n l).filter
              (fun f => f.line == n + (k2 + 1)) = [] := by
            rw [List.filter_eq_nil_iff]
            intro f hf
            have := scanLine_line_eq rules n l f hf
            simp only [beq_iff_eq]
            omega
          have h2 := ih (n + 1) k2 h
          have harith : n + 1 + k2 = n + (k2 + 1) := by omega
          rw [harith] at h2
          rw [h1, h2, List.nil_append]

/-- C6: the findings of every scan are ordered by ascending line number,
and the findings with the line number of the k-th input line are exactly
the result of `scanLine` on that line, which runs every enabled rule in
catalog order with no first-match short-circuit. -/
theorem scan_findings_order (rules : List Rule) (content filePath : String) :
    ((EnvScanner.scanContent rules content filePath).findings).Pairwise
      (fun f g => f.line ≤ g.line) ∧
    (∀ (k : Nat) (line : String), (splitNl content)[k]? = some line →
      ((EnvScanner.scanContent rules content filePath).findings).filter
        (fun f => f.line == k + 1) =
        EnvScanner.scanLine rules (k + 1) line) := by
  constructor
  · exact scanLines_pairwise rules 1 (splitNl content)
  · intro k line h
    have h2 := scanLines_filter_eq rules (splitNl content) 1 k line h
    have harith : 1 + k = k + 1 := Nat.add_comm 1 k
    rw [harith] at h2
    exact h2

/-- Witness for C6 at a concrete one-line input. -/
theorem scan_findings_order_witness :
    (splitNl "DEBUG=true")[0]? = some "DEBUG=true" ∧
    ((EnvScanner.scanContent DEFAULT_RULES "DEBUG=true" ".env").findings).filter
      (fun f => f.line == 0 + 1) =
      EnvScanner.scanLine DEFAULT_RULES (0 + 1) "DEBUG=true" :=
  ⟨by decide,
   (scan_findings_order DEFAULT_RULES "DEBUG=true" ".env").2 0 "DEBUG=true"
     (by decide)⟩

/-! ## Idempotence of trimming -/

/-- Dropping a satisfied prefix twice is the same as dropping it once. -/
theorem dropWhile_idem (p : Char → Bool) (l : List Char) :
    (l.dropWhile p).dropWhile p = l.dropWhile p := by
  induction l with
  | nil => rfl
  | cons c t ih =>
      cases hc : p c <;> simp [List.dropWhile_cons, hc, ih]

/-- The head of a dropWhile result never satisfies the predicate. -/
theorem dropWhile_head_false (p : Char → Bool) (l : List Char) (c : Char)
    (t : List Char) (h : l.dropWhile p = c :: t) : p c = false := by
  induction l with
  | nil => simp at h
  | cons d u ih =>
      rw [List.dropWhile_cons] at h
      split at h
      · exact ih h
      · rename_i hq
        injection h with h1 _
        subst h1
        simpa using hq

/-- dropWhile returns a suffix of its input. -/
theorem dropWhile_suffix_aux (p : Char → Bool) (l : List Char) :
    ∃ pre, pre ++ l.dropWhile p = l := by
  induction l with
  | nil => exact ⟨[], rfl⟩
  | cons c t ih =>
      cases hc : p c
      · exact ⟨[], by simp [List.dropWhile_cons, hc]⟩
      · obtain ⟨pre, hpre⟩ := ih
        exact ⟨c :: pre, by simp [List.dropWhile_cons, hc, hpre]⟩

/-- A nonempty dropWhile result ends where the input ends. -/
theorem dropWhile_getLast_eq (p : Char → Bool) (l : List Char)
    (h : l.dropWhile p ≠ []) : (l.dropWhile p).getLast? = l.getLast? := by
  obtain ⟨pre, hpre⟩ := dropWhile_suffix_aux p l
  conv_rhs => rw [← hpre]
  exact (List.getLast?_append_of_ne_nil pre h).symm

/-- If the head of a list fails the predicate, dropWhile is the
identity. -/
theorem dropWhile_of_head_false (p : Char → Bool) (l : List Char) (c : Char)
    (hc : l.head? = some c) (hp : p c = false) : l.dropWhile p = l := by
  cases l with
  | nil => rfl
  | cons d t =>
      rw [List.head?_cons, Option.some.injEq] at hc
      subst hc
      simp [List.dropWhile_cons, hp]

/-- Trimming a character list is idempotent. -/
theorem trimChars_idem (cs : List Char) :
    trimChars (trimChars cs) = trimChars cs := by
  unfold trimChars
  cases hu : cs.dropWhile isJsWs with
  | nil => simp
  | cons c t =>
      have hc : isJsWs c = false := dropWhile_head_false isJsWs cs c t hu
      cases hv : (c :: t).reverse.dropWhile isJsWs with
      | nil => simp [hu, hv]
      | cons d w =>
          have hd : isJsWs d = false :=
            dropWhile_head_false isJsWs (c :: t).reverse d w hv
          have hlast : (d :: w).getLast? = some c := by
            rw [← hv]
            rw [dropWhile_getLast_eq isJsWs (c :: t).reverse (by rw [hv]; simp)]
            rw [List.getLast?_reverse]
            rfl
          have hstep1 : (d :: w).reverse.dropWhile isJsWs = (d :: w).reverse := by
            apply dropWhile_of_head_false isJsWs _ c
            · rw [List.head?_reverse]
              exact hlast
            · exact hc
          have hstep2 : (d :: w).dropWhile isJsWs = d :: w :=
            dropWhile_of_head_false isJsWs (d :: w) d (by simp) hd
          rw [hstep1, List.reverse_reverse, hstep2]

/-- Trimming a string is idempotent. -/
theorem trimStr_idem (s : String) : trimStr (trimStr s) = trimStr s :=
  congrArg String.mk (trimChars_idem s.data)

/-- C9: rule pattern tests and remediation replacements operate on the
whitespace-trimmed line: scanning a line equals scanning its trimmed form,
an indented DEBUG line still matches the caret-and-dollar anchored debug
rule, and the comment-out replacement embeds the trimmed line without the
original indentation. -/
theorem scan_trims_lines (rules : List Rule) (n : Nat) (line : String) :
    EnvScanner.scanLine rules n line =
      EnvScanner.scanLine rules n (trimStr line) ∧
    ((EnvScanner.scanContent DEFAULT_RULES "  DEBUG=true" ".env").findings.map
      (fun f => (f.ruleId, f.quickFix.type, f.quickFix.replacement)) =
      [("debug-enabled", FixType.mask, "DEBUG=***MASKED***")]) ∧
    ((EnvScanner.scanContent DEFAULT_RULES "  DB_PASSWORD=123456" ".env").findings.map
      (fun f => f.quickFix.replacement) =
      ["# DB_PASSWORD=123456 # SECURITY: Remove hardcoded password and use secure environment variable injection",
       "DB_PASSWORD=***MASKED***"]) := by
  refine ⟨?_, by decide, by decide⟩
  unfold EnvScanner.scanLine
  rw [trimStr_idem]

/-! ## Shape of the line parser -/

/-- takeWhile and dropWhile at the first failing element. -/
theorem takeWhile_dropWhile_split (p : Char → Bool) (a b : List Char)
    (x : Char) (ha : a.all p = true) (hx : p x = false) :
    (a ++ x :: b).takeWhile p = a ∧ (a ++ x :: b).dropWhile p = x :: b := by
  induction a with
  | nil => simp [List.takeWhile_cons, List.dropWhile_cons, hx]
  | cons c t ih =>
      rw [List.all_cons, Bool.and_eq_true] at ha
      have := ih ha.2
      simp [List.takeWhile_cons, List.dropWhile_cons, ha.1, this.1, this.2]

/-- C10: the parser extracts the key as the text strictly before the first
equals sign and the value as the remainder, which may contain further
equals signs; a line whose first character is an equals sign fails the
parse shape; such lines are skipped with no finding, and every finding
carries the trimmed key and trimmed value of the parsed line. -/
theorem parseLine_first_equals (a b : List Char) (rules : List Rule)
    (n : Nat) (s line2 : String) (f : Finding) :
    (a.all (fun c => !(c == '=')) = true → a.isEmpty = false →
      b.all (fun c => !(isLineTerm c)) = true →
      EnvScanner.parseLine ⟨a ++ '=' :: b⟩ = some (⟨a⟩, ⟨b⟩)) ∧
    EnvScanner.parseLine ⟨'=' :: b⟩ = none ∧
    ((trimStr s).data.head? = some '=' →
      EnvScanner.scanLine rules n s = []) ∧
    (f ∈ EnvScanner.scanLine rules n line2 →
      match EnvScanner.parseLine (trimStr line2) with
      | none => False
      | some (k, v) => f.key = trimStr k ∧ f.value = trimStr v) := by
  refine ⟨?_, ?_, ?_, ?_⟩
  · intro h1 h2 h3
    obtain ⟨htake, hdrop⟩ :=
      takeWhile_dropWhile_split (fun c => !(c == '=')) a b '=' h1 (by simp)
    unfold EnvScanner.parseLine
    dsimp only
    rw [htake, hdrop]
    have hany : b.any isLineTerm = false := by
      cases hb : b.any isLineTerm
      · rfl
      · rw [List.any_eq_true] at hb
        obtain ⟨c, hcb, hct⟩ := hb
        rw [List.all_eq_true] at h3
        have := h3 c hcb
        simp_all
    simp [h2, hany]
  · rfl
  · intro hhead
    unfold EnvScanner.scanLine
    cases ht : (trimStr s).data with
    | nil => simp [ht]
    | cons c rest =>
        rw [ht, List.head?_cons, Option.some.injEq] at hhead
        subst hhead
        have hparse : EnvScanner.parseLine (trimStr s) = none := by
          unfold EnvScanner.parseLine
          rw [ht]
          rfl
        simp [ht, hparse]
  · intro hf
    simp only [EnvScanner.scanLine] at hf
    split at hf
    · simp at hf
    · split at hf
      · simp at hf
      · rename_i k v hparse
        rw [List.mem_filterMap] at hf
        obtain ⟨rule, _, happ⟩ := hf
        split at happ
        · exact applyRule_key_value_eq _ _ _ _ _ _ happ
        · exact absurd happ (by simp)

/-- The concrete finding produced by the debug rule on the line DEBUG=true,
used to witness the parser theorem. -/
def c10Finding : Finding where
  line := 1
  column := 1
  key := "DEBUG"
  value := "true"
  severity := Severity.warning
  ruleId := "debug-enabled"
  message := "Debug Mode Enabled: Debug mode should not be enabled in production"
  suggestion := "Set DEBUG=false or remove for production environments"
  quickFix := ⟨FixType.mask, "DEBUG=***MASKED***"⟩

/-- Witness for C10 at concrete inputs. -/
theorem parseLine_first_equals_witness :
    (['K'].all (fun c => !(c == '=')) = true) ∧
    (['K'].isEmpty = false) ∧
    (['V', '=', 'W'].all (fun c => !(isLineTerm c)) = true) ∧
    EnvScanner.parseLine ⟨['K'] ++ '=' :: ['V', '=', 'W']⟩ =
      some (⟨['K']⟩, ⟨['V', '=', 'W']⟩) ∧
    EnvScanner.parseLine ⟨'=' :: ['V', '=', 'W']⟩ = none ∧
    ((trimStr "=X").data.head? = some '=') ∧
    EnvScanner.scanLine DEFAULT_RULES 1 "=X" = [] ∧
    c10Finding ∈ EnvScanner.scanLine DEFAULT_RULES 1 "DEBUG=true" ∧
    (match EnvScanner.parseLine (trimStr "DEBUG=true") with
     | none => False
     | some (k, v) =>
        c10Finding.key = trimStr k ∧ c10Finding.value = trimStr v) :=
  ⟨by decide, by decide, by decide,
   (parseLine_first_equals ['K'] ['V', '=', 'W'] DEFAULT_RULES 1 "=X"
     "DEBUG=true" c10Finding).1 (by decide) (by decide) (by decide),
   (parseLine_first_equals ['K'] ['V', '=', 'W'] DEFAULT_RULES 1 "=X"
     "DEBUG=true" c10Finding).2.1,
   by decide,
   (parseLine_first_equals ['K'] ['V', '=', 'W'] DEFAULT_RULES 1 "=X"
     "DEBUG=true" c10Finding).2.2.1 (by decide),
   by decide,
   (parseLine_first_equals ['K'] ['V', '=', 'W'] DEFAULT_RULES 1 "=X"
     "DEBUG=true" c10Finding).2.2.2 (by decide)⟩
